import Mathlib

/-!
Verification development for the azul query layer.

The definitions below are a shallow embedding of the query-building,
transform and transaction code (`src/lib/query/mixins/transaction.js`,
`src/lib/query/mixins/transform.js`, `src/lib/query/select.js`,
`src/lib/query/entry.js`), plus models of the join resolver, the relation
collection caches and the in-flight relation changes whose implementation
is exercised only through the repository's test files.

JavaScript objects are modelled explicitly: queries carry an object id,
array-valued fields are references into a heap of arrays (so `slice(0)`
copies versus aliasing are observable), and the shared transaction handle
lives in a heap of handles.  Mutable pool/connection effects are threaded
through a `DbState`.
-/

set_option autoImplicit false

namespace Azul

/-- The JavaScript numbers a `_transactionDepth` field can hold: it starts
out `undefined`, arithmetic on `undefined` yields `NaN`, and otherwise it
is an integer. -/
inductive JsNum where
  | undef
  | nan
  | int (i : Int)
  deriving DecidableEq, Repr

/-- JavaScript falsiness for a depth value: `undefined`, `NaN` and `0` are
falsy. -/
def JsNum.falsy : JsNum → Bool
  | .undef => true
  | .nan => true
  | .int i => i == 0

/-- JavaScript `x += 1` on a depth value. -/
def JsNum.add1 : JsNum → JsNum
  | .undef => .nan
  | .nan => .nan
  | .int i => .int (i + 1)

/-- JavaScript `x -= 1` on a depth value. -/
def JsNum.sub1 : JsNum → JsNum
  | .undef => .nan
  | .nan => .nan
  | .int i => .int (i - 1)

/-- The state of one shared transaction handle (the query returned by
`begin`, whose `_transaction*` fields every chained query reads and
writes).  Mirrors the fields set in `src/lib/query/mixins/transaction.js`. -/
structure TxHandle where
  transactionDepth : JsNum := .undef
  transactionNeedsToAcquireClient : Bool := false
  transactionNeedsToReleaseClient : Bool := false
  transactionClosed : Bool := false
  transactionClient : Option Nat := none
  transactionHasClientPromise : Bool := false
  deriving DecidableEq, Repr

/-- Connection-pool bookkeeping: how often `pool.acquire` and
`pool.release` have been called, and the id the next acquired client will
get. -/
structure Pool where
  acquireCount : Nat := 0
  releaseCount : Nat := 0
  nextClient : Nat := 0
  deriving DecidableEq, Repr

/-- The `__identity__` of a query (its class). -/
inductive QueryKind where
  | entry
  | select
  deriving DecidableEq, Repr

/-- A condition tree, per the spec: a leaf is a field/operator/value
triple, combinators are AND/OR over children.  Condition objects are
immutable values. -/
inductive CondTree where
  | leaf (field : String) (op : String) (value : Int)
  | and (l r : CondTree)
  | or (l r : CondTree)
  deriving DecidableEq, Repr

/-- One query object.  Array-valued clause fields (`_transforms`,
`_tables`, `_columns`, `_order`, `_joins`, `_groupBy`) are references
into the heaps of `DbState` (so copying versus aliasing is observable);
`_transaction` is a reference into the handle heap; the condition tree,
limit and offset are immutable values carried on the object. -/
structure Query where
  qid : Nat
  kind : QueryKind
  transformsRef : Nat
  ordersRef : Nat
  joinsRef : Nat
  tablesRef : Option Nat := none
  columnsRef : Option Nat := none
  groupByRef : Option Nat := none
  whereTree : Option CondTree := none
  limitVal : Option Nat := none
  offsetVal : Option Nat := none
  transactionRef : Option Nat := none
  transactionSQLOverride : Option String := none
  deriving DecidableEq, Repr

/-- Allocate a fresh array in a heap of arrays, returning its reference. -/
def listAlloc {α : Type} (heap : List (List α)) (xs : List α) :
    Nat × List (List α) :=
  (heap.length, heap ++ [xs])

/-- Read an array out of a heap of arrays. -/
def listGet {α : Type} (heap : List (List α)) (r : Nat) : List α :=
  heap.getD r []

/-- `arr.push(x)` on the array behind reference `r`. -/
def listPush {α : Type} (heap : List (List α)) (r : Nat) (x : α) :
    List (List α) :=
  heap.set r (listGet heap r ++ [x])

/-- The mutable world: object-id supply, the heap of transform arrays
(function ids), the heap of string arrays (tables/columns), the heap of
transaction handles, the connection pool, and how many SQL statements
have reached a connection. -/
structure DbState where
  nextId : Nat := 0
  fnArrs : List (List Nat) := []
  strArrs : List (List String) := []
  handles : List TxHandle := []
  pool : Pool := {}
  executedSQLCount : Nat := 0
  deriving DecidableEq, Repr

def DbState.empty : DbState := {}

/-- Read a transaction handle. -/
def getHandle (σ : DbState) (h : Nat) : TxHandle :=
  σ.handles.getD h {}

/-- Write a transaction handle. -/
def setHandle (σ : DbState) (h : Nat) (t : TxHandle) : DbState :=
  { σ with handles := σ.handles.set h t }

/-- Allocate a fresh transaction handle (all fields `undefined`/falsy). -/
def allocHandle (σ : DbState) : Nat × DbState :=
  (σ.handles.length, { σ with handles := σ.handles ++ [{}] })

/-- `BaseQuery#_dup` composed with the `_take` overrides: the overrides
present in the source are embedded directly — `Transform#_take` copies
`_transforms` with `slice(0)`, `Transaction#_take` copies the
`_transaction` reference, `SelectQuery#_take` copies
`_tables`/`_columns` with `slice(0)` — and the clause mixins' `_take`
is modelled from the spec (section 4.1: duplication deep-copies
array-typed clause fields — ordering, joins, grouping — to prevent
aliasing, and reuses everything else — the immutable condition tree,
limit, offset — by reference), since `BaseQuery` and the clause mixins
are not under src.  `_transactionSQLOverride` is not copied by any
`_take` (the `transaction` setter re-establishes it explicitly). -/
def Query.dup (q : Query) (σ : DbState) : Query × DbState :=
  let tPair := listAlloc σ.fnArrs (listGet σ.fnArrs q.transformsRef)
  let σ1 := { σ with fnArrs := tPair.2 }
  let oPair := listAlloc σ1.strArrs (listGet σ.strArrs q.ordersRef)
  let σ2 := { σ1 with strArrs := oPair.2 }
  let jPair := listAlloc σ2.strArrs (listGet σ.strArrs q.joinsRef)
  let σ3 := { σ2 with strArrs := jPair.2 }
  let tbPair : Option Nat × DbState :=
    match q.tablesRef with
    | none => (none, σ3)
    | some r =>
        let p := listAlloc σ3.strArrs (listGet σ.strArrs r)
        (some p.1, { σ3 with strArrs := p.2 })
  let σ4 := tbPair.2
  let clPair : Option Nat × DbState :=
    match q.columnsRef with
    | none => (none, σ4)
    | some r =>
        let p := listAlloc σ4.strArrs (listGet σ.strArrs r)
        (some p.1, { σ4 with strArrs := p.2 })
  let σ5 := clPair.2
  let gPair : Option Nat × DbState :=
    match q.groupByRef with
    | none => (none, σ5)
    | some r =>
        let p := listAlloc σ5.strArrs (listGet σ.strArrs r)
        (some p.1, { σ5 with strArrs := p.2 })
  let σ6 := gPair.2
  ({ qid := σ.nextId
     kind := q.kind
     transformsRef := tPair.1
     ordersRef := oPair.1
     joinsRef := jPair.1
     tablesRef := tbPair.1
     columnsRef := clPair.1
     groupByRef := gPair.1
     whereTree := q.whereTree
     limitVal := q.limitVal
     offsetVal := q.offsetVal
     transactionRef := q.transactionRef
     transactionSQLOverride := none },
   { σ6 with nextId := σ.nextId + 1 })

/-- `Transaction#_prepareForTransactionClientAcquire`. -/
def prepareForTransactionClientAcquire (t : Option Nat) (σ : DbState) :
    DbState :=
  match t with
  | none => σ
  | some h =>
      let th := getHandle σ h
      let th :=
        if th.transactionDepth.falsy then
          { th with
            transactionDepth := .int 0
            transactionNeedsToAcquireClient := true }
        else th
      setHandle σ h { th with transactionDepth := th.transactionDepth.add1 }

/-- `Transaction#_prepareForTransactionClientRelease`. -/
def prepareForTransactionClientRelease (t : Option Nat) (σ : DbState) :
    DbState :=
  match t with
  | none => σ
  | some h =>
      let th := getHandle σ h
      let th :=
        if th.transactionDepth = .int 1 then
          { th with
            transactionNeedsToReleaseClient := true
            transactionClosed := true }
        else th
      setHandle σ h { th with transactionDepth := th.transactionDepth.sub1 }

/-- `Transaction#begin`: duplicate, set the SQL override, bind the handle
(the duplicate itself when the query has none yet) and prepare the client
acquire. -/
def Query.begin (q : Query) (σ : DbState) : Query × DbState :=
  let p := q.dup σ
  let dup := { p.1 with transactionSQLOverride := some "begin" }
  let hp : Query × DbState :=
    match dup.transactionRef with
    | some _ => (dup, p.2)
    | none =>
        let a := allocHandle p.2
        ({ dup with transactionRef := some a.1 }, a.2)
  (hp.1, prepareForTransactionClientAcquire hp.1.transactionRef hp.2)

/-- `Transaction#commit`: duplicate, set the SQL override and prepare the
client release (mutating the shared handle immediately, at build time). -/
def Query.commit (q : Query) (σ : DbState) : Query × DbState :=
  let p := q.dup σ
  let dup := { p.1 with transactionSQLOverride := some "commit" }
  (dup, prepareForTransactionClientRelease dup.transactionRef p.2)

/-- `Transaction#rollback`: like `commit` with the `rollback` override. -/
def Query.rollback (q : Query) (σ : DbState) : Query × DbState :=
  let p := q.dup σ
  let dup := { p.1 with transactionSQLOverride := some "rollback" }
  (dup, prepareForTransactionClientRelease dup.transactionRef p.2)

/-- `Transaction#transaction` (setter form): duplicate, bind the given
handle, re-establish the SQL override, and prepare the release when the
override is `commit` or `rollback`. -/
def Query.transaction (q : Query) (t : Nat) (σ : DbState) :
    Query × DbState :=
  let sql := q.transactionSQLOverride
  let p := q.dup σ
  let dup := { p.1 with transactionRef := some t }
  let dup :=
    match sql with
    | some s => { dup with transactionSQLOverride := some s }
    | none => dup
  let σ2 :=
    if sql = some "rollback" ∨ sql = some "commit" then
      prepareForTransactionClientRelease dup.transactionRef p.2
    else p.2
  (dup, σ2)

/-- `Transaction#_validateBeforeTransactionExecution`, returning the
thrown message when validation fails. -/
def Query.validateBeforeTransactionExecution (q : Query) (σ : DbState) :
    Option String :=
  if q.transactionSQLOverride = some "begin" then
    none
  else if q.transactionRef = none ∧ q.transactionSQLOverride ≠ none then
    some ("Must associate \"" ++ q.transactionSQLOverride.getD "" ++
      "\" with a transaction.")
  else
    match q.transactionRef with
    | none => none
    | some h =>
        if (getHandle σ h).transactionNeedsToAcquireClient then
          some "Must execute `begin` query before using transaction."
        else if (getHandle σ h).transactionClosed ∧
            q.transactionSQLOverride = none then
          some "Cannot execute query using committed/resolved transaction."
        else none

/-- `Transaction#_beforeTransactionExecution` after validation has
passed: acquire a pooled client when the handle still needs one; chained
queries otherwise await the already-stored acquisition promise. -/
def Query.beforeTransactionExecution (q : Query) (σ : DbState) : DbState :=
  match q.transactionRef with
  | none => σ
  | some h =>
      let th := getHandle σ h
      if th.transactionNeedsToAcquireClient then
        let c := σ.pool.nextClient
        let σ2 := { σ with pool :=
          { acquireCount := σ.pool.acquireCount + 1
            releaseCount := σ.pool.releaseCount
            nextClient := c + 1 } }
        setHandle σ2 h
          { th with
            transactionClient := some c
            transactionHasClientPromise := true
            transactionNeedsToAcquireClient := false }
      else σ

/-- `Transaction#_afterTransactionExecution`: release the client when the
handle is flagged for release. -/
def Query.afterTransactionExecution (q : Query) (σ : DbState) : DbState :=
  match q.transactionRef with
  | none => σ
  | some h =>
      let th := getHandle σ h
      if th.transactionNeedsToReleaseClient then
        let σ2 := { σ with pool :=
          { σ.pool with releaseCount := σ.pool.releaseCount + 1 } }
        setHandle σ2 h
          { th with
            transactionClient := none
            transactionNeedsToReleaseClient := false }
      else σ

/-- The statement reaching a connection (the `_super()` call inside
`_execute`): counted so claims can observe whether it happened. -/
def Query.runStatement (_q : Query) (σ : DbState) : DbState :=
  { σ with executedSQLCount := σ.executedSQLCount + 1 }

/-- `Transaction#_execute`: validate, run the before-actions, the
statement, then the after-actions.  A validation failure rejects before
anything reaches a connection, leaving the world untouched. -/
def Query.execute (q : Query) (σ : DbState) : DbState × Option String :=
  match q.validateBeforeTransactionExecution σ with
  | some e => (σ, some e)
  | none =>
      let σ1 := q.beforeTransactionExecution σ
      let σ2 := q.runStatement σ1
      let σ3 := q.afterTransactionExecution σ2
      (σ3, none)

/-- `Transform#transform`: duplicate (which `slice(0)`-copies the
transform array) and push the new function id onto the duplicate's
array. -/
def Query.transform (q : Query) (f : Nat) (σ : DbState) : Query × DbState :=
  let p := q.dup σ
  (p.1, { p.2 with fnArrs := listPush p.2.fnArrs p.1.transformsRef f })

/-- `Transform#_applyTransforms`: left fold of the registered transform
functions over the result, each receiving the previous output and the
query's type.  `env` interprets function ids. -/
def Query.applyTransforms {ρ : Type} (q : Query) (σ : DbState)
    (env : Nat → ρ → QueryKind → ρ) (result : ρ) : ρ :=
  (listGet σ.fnArrs q.transformsRef).foldl
    (fun acc f => env f acc q.kind) result

/-- A fresh `EntryQuery` (`Transform#init` allocates an empty transform
array; the ordering and join clause sequences start empty too). -/
def entryQuery (σ : DbState) : Query × DbState :=
  let p := listAlloc σ.fnArrs []
  let o := listAlloc σ.strArrs []
  let j := listAlloc o.2 []
  ({ qid := σ.nextId
     kind := .entry
     transformsRef := p.1
     ordersRef := o.1
     joinsRef := j.1 },
   { σ with fnArrs := p.2, strArrs := j.2, nextId := σ.nextId + 1 })

/-- Modelled from the spec (section 4.1, the where mixin is not under
src): `where(conditions)` returns a duplicate whose condition tree is
the new conditions, ANDed onto any existing tree. -/
def Query.whereClause (q : Query) (c : CondTree) (σ : DbState) :
    Query × DbState :=
  let p := q.dup σ
  ({ p.1 with whereTree :=
      match p.1.whereTree with
      | none => some c
      | some w => some (CondTree.and w c) }, p.2)

/-- Modelled from the spec (section 4.1, the order mixin is not under
src): `orderBy(spec)` returns a duplicate with the ordering entry
appended to the duplicate's (copied) ordering sequence. -/
def Query.orderBy (q : Query) (s : String) (σ : DbState) : Query × DbState :=
  let p := q.dup σ
  (p.1, { p.2 with strArrs := listPush p.2.strArrs p.1.ordersRef s })

/-- Modelled from the spec (section 4.1, the join mixin is not under
src): `join(relationPath)` returns a duplicate with the join spec
appended to the duplicate's (copied) join sequence. -/
def Query.join (q : Query) (path : String) (σ : DbState) : Query × DbState :=
  let p := q.dup σ
  (p.1, { p.2 with strArrs := listPush p.2.strArrs p.1.joinsRef path })

/-- Modelled from the spec (section 4.1, the limit mixin is not under
src): `limit(n)` returns a duplicate with the limit replaced. -/
def Query.limit (q : Query) (n : Nat) (σ : DbState) : Query × DbState :=
  let p := q.dup σ
  ({ p.1 with limitVal := some n }, p.2)

/-- Modelled from the spec (section 4.1, the limit mixin is not under
src): `offset(n)` returns a duplicate with the offset replaced. -/
def Query.offset (q : Query) (n : Nat) (σ : DbState) : Query × DbState :=
  let p := q.dup σ
  ({ p.1 with offsetVal := some n }, p.2)

/-- Modelled from the spec (section 4.1, the group-by mixin is not under
src): `groupBy(fields)` returns a duplicate with the grouping clause
replaced by a freshly allocated field array. -/
def Query.groupBy (q : Query) (fields : List String) (σ : DbState) :
    Query × DbState :=
  let p := q.dup σ
  let a := listAlloc p.2.strArrs fields
  ({ p.1 with groupByRef := some a.1 }, { p.2 with strArrs := a.2 })

/-- `EntryQuery#select` / `SelectQuery#_create`: spawn a select query
with its table list and optional column list. -/
def Query.select (q : Query) (table : String) (columns : Option (List String))
    (σ : DbState) : Query × DbState :=
  let p := q.dup σ
  let tb := listAlloc p.2.strArrs [table]
  let σ1 := { p.2 with strArrs := tb.2 }
  let clPair : Option Nat × DbState :=
    match columns with
    | none => (none, σ1)
    | some cs =>
        let a := listAlloc σ1.strArrs cs
        (some a.1, { σ1 with strArrs := a.2 })
  ({ p.1 with
     kind := .select
     tablesRef := some tb.1
     columnsRef := clPair.1 }, clPair.2)

/-- The observable clause state a query owns: its tables, columns,
transform list, condition tree, ordering sequence, join sequence,
grouping fields, limit and offset (array-typed parts dereferenced
through the heaps). -/
structure ClauseState where
  tables : Option (List String)
  columns : Option (List String)
  transforms : List Nat
  whereTree : Option CondTree
  orders : List String
  joins : List String
  groupByFields : Option (List String)
  limitVal : Option Nat
  offsetVal : Option Nat
  deriving DecidableEq, Repr

def Query.clauseState (q : Query) (σ : DbState) : ClauseState :=
  { tables := q.tablesRef.map (listGet σ.strArrs)
    columns := q.columnsRef.map (listGet σ.strArrs)
    transforms := listGet σ.fnArrs q.transformsRef
    whereTree := q.whereTree
    orders := listGet σ.strArrs q.ordersRef
    joins := listGet σ.strArrs q.joinsRef
    groupByFields := q.groupByRef.map (listGet σ.strArrs)
    limitVal := q.limitVal
    offsetVal := q.offsetVal }

/-- Heap references of a query are in range and its id has been
allocated. -/
def DbState.wfQuery (σ : DbState) (q : Query) : Bool :=
  decide (q.qid < σ.nextId) &&
  decide (q.transformsRef < σ.fnArrs.length) &&
  q.tablesRef.all (fun r => decide (r < σ.strArrs.length)) &&
  q.columnsRef.all (fun r => decide (r < σ.strArrs.length)) &&
  decide (q.ordersRef < σ.strArrs.length) &&
  decide (q.joinsRef < σ.strArrs.length) &&
  q.groupByRef.all (fun r => decide (r < σ.strArrs.length))

/-!
Concrete transaction scenario: `begin(); begin(); commit(); commit()`,
each query built from the previous one and executed as soon as it is
built (the usage the spec's nesting property describes).  `txB*` is the
state right after building query `txQ*`; `txE*` is the result of
executing it.
-/

def txS0 : Query × DbState := entryQuery DbState.empty

def txQ0 : Query := txS0.1

def txA0 : DbState := txS0.2

def txS1 : Query × DbState := txQ0.begin txA0

def txQ1 : Query := txS1.1

def txB1 : DbState := txS1.2

def txE1 : DbState × Option String := txQ1.execute txB1

def txS2 : Query × DbState := txQ1.begin txE1.1

def txQ2 : Query := txS2.1

def txB2 : DbState := txS2.2

def txE2 : DbState × Option String := txQ2.execute txB2

def txS3 : Query × DbState := txQ2.commit txE2.1

def txQ3 : Query := txS3.1

def txB3 : DbState := txS3.2

def txE3 : DbState × Option String := txQ3.execute txB3

def txS4 : Query × DbState := txQ3.commit txE3.1

def txQ4 : Query := txS4.1

def txB4 : DbState := txS4.2

def txE4 : DbState × Option String := txQ4.execute txB4

/-- A second `commit()` built off the already-closed handle, after the
terminal commit has executed. -/
def txS5 : Query × DbState := txQ4.commit txE4.1

def txQ5 : Query := txS5.1

def txB5 : DbState := txS5.2

def txE5 : DbState × Option String := txQ5.execute txB5

/-- A plain (no-override) query bound to the handle while the handle is
still pending-acquire. -/
def txPendingBound : Query × DbState := txQ0.transaction 0 txB1

/-- A plain (no-override) query bound to the handle after the handle has
closed. -/
def txClosedBound : Query × DbState := txQ0.transaction 0 txE4.1

/-- The second commit's before-actions followed by its statement, but not
yet its after-actions: the instant its statement has just completed. -/
def txMid4 : DbState := txQ4.runStatement (txQ4.beforeTransactionExecution txB4)

/-- A base query and a select spawned from it, used as concrete inputs for
the immutability and transform claims. -/
def wS0 : Query × DbState := entryQuery DbState.empty

def wSel : Query × DbState := wS0.1.select "people" (some ["a", "b"]) wS0.2

def wQ : Query := wSel.1

def wσ : DbState := wSel.2

/-- Transform-chain branches used as concrete inputs: two transforms on
one branch, then a third transform added on a second branch of the same
original query. -/
def brA : Query × DbState := wQ.transform 3 wσ

def brB : Query × DbState := brA.1.transform 5 brA.2

def brC : Query × DbState := wQ.transform 7 brB.2

/-- A concrete transform-function environment: interprets function id
`j` as appending digit `j` in base 10 (so application order is
observable). -/
def envW : Nat → Nat → QueryKind → Nat := fun j acc _ => acc * 10 + j

/-!
Join resolver model.  The join-inference code is not under src (only its
tests are), so the definitions below are modelled from the spec and
checked against the executed SQL the tests `src/unnamed/part_001`
expect.
-/

/-- Relation kind on a model class. -/
inductive RelKind where
  | belongsTo
  | hasMany
  deriving DecidableEq, Repr

/-- Modelled from the spec: a Relation Descriptor's parts the join
resolver consumes — its kind and the related entity type. -/
structure Relation where
  relKind : RelKind
  targetModel : String
  deriving DecidableEq, Repr

/-- Modelled from the spec: an entity type with its table, primary-key
column and declared relations. -/
structure ModelClass where
  tableName : String
  pkColumn : String
  relations : List (String × Relation)
  deriving DecidableEq, Repr

/-- A universe of entity types, keyed by model name. -/
def World : Type := List (String × ModelClass)

def lookupModel (w : World) (name : String) : Option ModelClass :=
  (w.find? (fun p => decide (p.1 = name))).map Prod.snd

/-- Smallest `n` (starting at `start`) such that `base ++ "_j" ++ n` is
not among the used names, searched with fuel. -/
def freeSuffix (used : List String) (base : String) :
    Nat → Nat → Nat
  | 0, n => n
  | fuel + 1, n =>
      if used.contains (base ++ "_j" ++ toString n) then
        freeSuffix used base fuel (n + 1)
      else n

/-- Modelled from the spec: deterministic alias assignment — the bare
relation name when it is not already in use (as the primary table name or
an earlier alias), otherwise the name with the first free `_jN` suffix.
Returns the alias together with the suffix index applied (if any). -/
def mkJoinAlias (used : List String) (base : String) : String × Option Nat :=
  if used.contains base then
    let n := freeSuffix used base used.length 1
    (base ++ "_j" ++ toString n, some n)
  else (base, none)

/-- One resolved join: the relation path prefix it serves, its alias, the
suffix index the alias carries (if any) and the joined table. -/
structure JoinEntry where
  pathSegs : List String
  joinAlias : String
  suffixIdx : Option Nat
  targetTable : String
  deriving DecidableEq, Repr

/-- Names in use plus the joins created so far, in creation order. -/
structure JoinState where
  used : List String
  joins : List JoinEntry
  deriving DecidableEq, Repr

/-- Modelled from the spec: walk a relation path from a model, reusing an
existing join for an already-joined path prefix and otherwise creating
one with a deterministic alias, in path-first-encountered order. -/
def addJoinsForPath (w : World) :
    ModelClass → JoinState → List String → List String → JoinState
  | _, st, _, [] => st
  | m, st, done, seg :: rest =>
      match m.relations.find? (fun p => decide (p.1 = seg)) with
      | none => st
      | some pr =>
          match lookupModel w pr.2.targetModel with
          | none => st
          | some tm =>
              let pathNow := done ++ [seg]
              let st2 :=
                if (st.joins.find? (fun e => decide (e.pathSegs = pathNow))).isSome
                then st
                else
                  let al := mkJoinAlias st.used seg
                  { used := st.used ++ [al.1]
                    joins := st.joins ++
                      [{ pathSegs := pathNow
                         joinAlias := al.1
                         suffixIdx := al.2
                         targetTable := tm.tableName }] }
              addJoinsForPath w tm st2 pathNow rest

/-- The primary table's name is in use before any join is created. -/
def initJoinState (m : ModelClass) : JoinState :=
  { used := [m.tableName], joins := [] }

def addPaths (w : World) (m : ModelClass) (st : JoinState)
    (paths : List (List String)) : JoinState :=
  paths.foldl (fun s p => addJoinsForPath w m s [] p) st

/-- A compiled select's join clauses and implicit grouping. -/
structure ResolvedSelect where
  joins : List JoinEntry
  groupBy : Option (String × String)
  deriving DecidableEq, Repr

/-- Modelled from the spec and the executed SQL in
`src/unnamed/part_001`: explicit `join()` paths are resolved first, then
the relation paths referenced by conditions/ordering; the implicit
`GROUP BY primary.pk` appears exactly when resolving the condition paths
created at least one new (automatic) join. -/
def resolveSelect (w : World) (m : ModelClass)
    (explicitJoinPaths condPaths : List (List String)) : ResolvedSelect :=
  let st1 := addPaths w m (initJoinState m) explicitJoinPaths
  let st2 := addPaths w m st1 condPaths
  { joins := st2.joins
    groupBy :=
      if st1.joins.length < st2.joins.length then
        some (m.tableName, m.pkColumn)
      else none }

/-- The `employee` model of the self-join tests: `manager` (belongs-to)
and `subordinates` (has-many), both to `employee` itself, table
`employees`. -/
def employeeModel : ModelClass :=
  { tableName := "employees"
    pkColumn := "id"
    relations :=
      [("manager", { relKind := .belongsTo, targetModel := "employee" }),
       ("subordinates", { relKind := .hasMany, targetModel := "employee" })] }

def employeeWorld : World := [("employee", employeeModel)]

/-- The `node` model of the name-conflict tests: `parent` (belongs-to)
and `nodes` (has-many), both to `node` itself, table `nodes` — the
`nodes` relation name collides with the table name. -/
def nodeModel : ModelClass :=
  { tableName := "nodes"
    pkColumn := "id"
    relations :=
      [("parent", { relKind := .belongsTo, targetModel := "node" }),
       ("nodes", { relKind := .hasMany, targetModel := "node" })] }

def nodeWorld : World := [("node", nodeModel)]

/-- Whether a relation of a model is self-referential (the entity joined
to its own table). -/
def selfReferential (w : World) (m : ModelClass) (relName : String) : Bool :=
  match m.relations.find? (fun p => decide (p.1 = relName)) with
  | none => false
  | some pr =>
      match lookupModel w pr.2.targetModel with
      | none => false
      | some tm => decide (tm.tableName = m.tableName)

/-!
In-Flight Relation Change model.  The relation engine is not under src
(only its tests are), so the definitions are modelled from the spec
(§3, §4.4) and checked against `src/unnamed/part_000` lines 634-705.
-/

/-- Modelled from the spec: the pending operations accumulated for one
(owner, to-many relation) pair — a clear-all flag plus add and remove
sets. -/
structure InFlight where
  clear : Bool
  add : List Nat
  remove : List Nat
  deriving DecidableEq, Repr

def InFlight.empty : InFlight := { clear := false, add := [], remove := [] }

/-- Modelled from the spec: `add(x)` records x for addition and cancels a
pending removal of x. -/
def InFlight.addObject (s : InFlight) (x : Nat) : InFlight :=
  { s with add := s.add ++ [x], remove := s.remove.filter (fun y => y ≠ x) }

/-- Modelled from the spec: `remove(x)` records x for removal and cancels
a pending addition of x. -/
def InFlight.removeObject (s : InFlight) (x : Nat) : InFlight :=
  { s with remove := s.remove ++ [x], add := s.add.filter (fun y => y ≠ x) }

/-- Modelled from the spec: `clear()` discards the add/remove intent
recorded before it and sets the clear-all flag. -/
def InFlight.clearAll (_s : InFlight) : InFlight :=
  { clear := true, add := [], remove := [] }

/-- One batched storage operation of a flush. -/
inductive FlushOp where
  | clearAll
  | addBatch (xs : List Nat)
  | removeBatch (xs : List Nat)
  deriving DecidableEq, Repr

/-- Modelled from the spec: the storage statements a flush issues — the
clear (when flagged), then one batched add and one batched remove. -/
def InFlight.flushOps (s : InFlight) : List FlushOp :=
  (if s.clear then [FlushOp.clearAll] else []) ++
  (if s.add.isEmpty then [] else [FlushOp.addBatch s.add]) ++
  (if s.remove.isEmpty then [] else [FlushOp.removeBatch s.remove])

/-- Modelled from the spec: saving the owner flushes the in-flight change
as storage operations; when storage accepts them the in-flight change
resets to empty, when storage fails it is left intact and the error
propagates.  Returns the new in-flight state, the operations issued and
the error (if any). -/
def InFlight.performSave (s : InFlight) (dbOk : Bool) :
    InFlight × List FlushOp × Option String :=
  if dbOk then (InFlight.empty, s.flushOps, none)
  else (s, s.flushOps, some "Intended test error.")

/-!
Collection cache model.  Modelled from the spec (§3 Entity Instance,
§4.4) and the "not yet loaded" expectations of
`src/unnamed/part_000` and `src/test/relations/many_to_many_tests.js`.
-/

/-- A fetched row of the related table: its id and its foreign key back
to an owner. -/
structure RelatedRow where
  rowId : Nat
  fk : Option Nat
  deriving DecidableEq, Repr

/-- Modelled from the spec: a relation collection cache is either absent
(`none`, the relation has not been loaded) or a concrete ordered
sequence of related instances. -/
def accessCollectionCache (relName : String) (cache : Option (List Nat)) :
    Except String (List Nat) :=
  match cache with
  | none => Except.error ("The relation " ++ relName ++ " is not yet loaded.")
  | some xs => Except.ok xs

/-- Modelled from the spec: completing the owning fetch / eager load
installs the owner's related rows, in fetched order, as the cache — an
empty list (never an absent cache) when the owner has no related rows. -/
def loadCollectionCache (ownerPk : Nat) (rows : List RelatedRow) :
    Option (List Nat) :=
  some ((rows.filter (fun r => r.fk = some ownerPk)).map RelatedRow.rowId)

/-! ### Helper lemmas about the heaps -/

theorem listGet_append_lt {α : Type} (h1 h2 : List (List α)) (r : Nat)
    (h : r < h1.length) : listGet (h1 ++ h2) r = listGet h1 r :=
  List.getD_append h1 h2 [] r h

theorem listGet_set_ne {α : Type} (heap : List (List α)) (j r : Nat)
    (x : List α) (h : r ≠ j) : listGet (heap.set j x) r = listGet heap r := by
  induction heap generalizing j r with
  | nil => rfl
  | cons a t ih =>
      cases j with
      | zero =>
          cases r with
          | zero => exact absurd rfl h
          | succ n => rfl
      | succ m =>
          cases r with
          | zero => rfl
          | succ n =>
              have hne : n ≠ m := fun hh => h (by rw [hh])
              simpa [listGet, List.getD_cons_succ] using ih m n hne

theorem listGet_last {α : Type} (h1 : List (List α)) (xs : List α) :
    listGet (h1 ++ [xs]) h1.length = xs := by
  induction h1 with
  | nil => rfl
  | cons a t ih =>
      show (a :: (t ++ [xs])).getD (t.length + 1) [] = xs
      rw [List.getD_cons_succ]
      exact ih

theorem listGet_set_self {α : Type} (heap : List (List α)) (j : Nat)
    (x : List α) (h : j < heap.length) : listGet (heap.set j x) j = x := by
  induction heap generalizing j with
  | nil => simp at h
  | cons a t ih =>
      cases j with
      | zero => rfl
      | succ m =>
          have hm : m < t.length := Nat.lt_of_succ_lt_succ h
          simpa [listGet, List.getD_cons_succ] using ih m hm

theorem listGetD_set_self {α : Type} (l : List α) (j : Nat) (x d : α)
    (h : j < l.length) : (l.set j x).getD j d = x := by
  induction l generalizing j with
  | nil => simp at h
  | cons a t ih =>
      cases j with
      | zero => rfl
      | succ m =>
          have hm : m < t.length := Nat.lt_of_succ_lt_succ h
          simpa [List.getD_cons_succ] using ih m hm

theorem getHandle_setHandle_self (σ : DbState) (h : Nat) (t : TxHandle)
    (hh : h < σ.handles.length) : getHandle (setHandle σ h t) h = t :=
  listGetD_set_self σ.handles h t {} hh

/-- What `_dup` produces: a fresh object id, a `slice(0)` copy of the
transform array appended to the heap, copies of any string arrays
appended to the string heap, the transaction reference carried over, and
no SQL override; handles, pool and statement count untouched. -/
theorem dup_state (q : Query) (σ : DbState) :
    (q.dup σ).1.qid = σ.nextId ∧
    (q.dup σ).1.kind = q.kind ∧
    (q.dup σ).1.transformsRef = σ.fnArrs.length ∧
    (q.dup σ).1.transactionRef = q.transactionRef ∧
    (q.dup σ).1.transactionSQLOverride = none ∧
    (q.dup σ).2.nextId = σ.nextId + 1 ∧
    (q.dup σ).2.handles = σ.handles ∧
    (q.dup σ).2.pool = σ.pool ∧
    (q.dup σ).2.executedSQLCount = σ.executedSQLCount ∧
    (q.dup σ).2.fnArrs = σ.fnArrs ++ [listGet σ.fnArrs q.transformsRef] ∧
    (∃ t, (q.dup σ).2.strArrs = σ.strArrs ++ t) := by
  unfold Query.dup
  cases hq : q.tablesRef <;> cases hc : q.columnsRef <;>
    cases hg : q.groupByRef <;> simp [listAlloc, listGet]

/-- Further `_dup` bookkeeping: the duplicate's ordering and join arrays
are fresh copies appended right after the original string heap, and the
value-typed clause fields (condition tree, limit, offset) are carried
over. -/
theorem dup_state2 (q : Query) (σ : DbState) :
    (q.dup σ).1.ordersRef = σ.strArrs.length ∧
    (q.dup σ).1.joinsRef = σ.strArrs.length + 1 ∧
    (q.dup σ).1.whereTree = q.whereTree ∧
    (q.dup σ).1.limitVal = q.limitVal ∧
    (q.dup σ).1.offsetVal = q.offsetVal ∧
    (∃ t, (q.dup σ).2.strArrs =
      (σ.strArrs ++ [listGet σ.strArrs q.ordersRef]
        ++ [listGet σ.strArrs q.joinsRef]) ++ t) := by
  unfold Query.dup
  cases hq : q.tablesRef <;> cases hc : q.columnsRef <;>
    cases hg : q.groupByRef <;> simp [listAlloc, listGet]

theorem dup_fn_pres (q : Query) (σ : DbState) :
    ∀ r, r < σ.fnArrs.length →
      listGet (q.dup σ).2.fnArrs r = listGet σ.fnArrs r := by
  intro r hr
  rw [(dup_state q σ).2.2.2.2.2.2.2.2.2.1, listGet_append_lt _ _ _ hr]

theorem dup_str_pres (q : Query) (σ : DbState) :
    ∀ r, r < σ.strArrs.length →
      listGet (q.dup σ).2.strArrs r = listGet σ.strArrs r := by
  intro r hr
  obtain ⟨t, hstr⟩ := (dup_state2 q σ).2.2.2.2.2
  have h1 : r < ((σ.strArrs ++ [listGet σ.strArrs q.ordersRef])
      ++ [listGet σ.strArrs q.joinsRef]).length := by
    simp [List.length_append]; omega
  have h2 : r < (σ.strArrs ++ [listGet σ.strArrs q.ordersRef]).length := by
    simp [List.length_append]; omega
  rw [hstr, listGet_append_lt _ _ _ h1, listGet_append_lt _ _ _ h2,
    listGet_append_lt _ _ _ hr]

theorem dup_str_len_ge (q : Query) (σ : DbState) :
    σ.strArrs.length + 2 ≤ (q.dup σ).2.strArrs.length := by
  obtain ⟨t, hstr⟩ := (dup_state2 q σ).2.2.2.2.2
  rw [hstr]
  simp [List.length_append]

theorem dup_orders_copy (q : Query) (σ : DbState) :
    listGet (q.dup σ).2.strArrs (q.dup σ).1.ordersRef =
      listGet σ.strArrs q.ordersRef := by
  obtain ⟨t, hstr⟩ := (dup_state2 q σ).2.2.2.2.2
  rw [(dup_state2 q σ).1, hstr,
    List.append_assoc (σ.strArrs ++ [listGet σ.strArrs q.ordersRef])]
  rw [listGet_append_lt]
  · exact listGet_last σ.strArrs _
  · simp

theorem dup_joins_copy (q : Query) (σ : DbState) :
    listGet (q.dup σ).2.strArrs (q.dup σ).1.joinsRef =
      listGet σ.strArrs q.joinsRef := by
  obtain ⟨t, hstr⟩ := (dup_state2 q σ).2.2.2.2.2
  have hlen : σ.strArrs.length + 1 =
      (σ.strArrs ++ [listGet σ.strArrs q.ordersRef]).length := by
    simp
  rw [(dup_state2 q σ).2.1, hstr, listGet_append_lt]
  · rw [hlen]
    exact listGet_last _ _
  · simp

theorem dup_str_bounds (q : Query) (σ : DbState) :
    (q.dup σ).1.ordersRef < (q.dup σ).2.strArrs.length ∧
    (q.dup σ).1.joinsRef < (q.dup σ).2.strArrs.length := by
  have hge := dup_str_len_ge q σ
  rw [(dup_state2 q σ).1, (dup_state2 q σ).2.1]
  omega

/-! ### Claim theorems -/

/-- **C1.** In the chain `begin(); begin(); commit(); commit()` (each
query built from the previous one and executed as built), the pool's
`acquire` is called exactly once — while the first begin executes — and
`release` is called exactly once, during the after-execution actions of
the second commit, i.e. after the second commit's statement has
completed; building and executing the inner begin/commit pair neither
acquires nor releases a connection, and no execution fails. -/
theorem nestedTransactionPoolLifecycle :
    (txA0.pool.acquireCount = 0 ∧ txA0.pool.releaseCount = 0) ∧
    (txB1.pool.acquireCount = 0 ∧ txE1.1.pool.acquireCount = 1 ∧
      txE1.1.pool.releaseCount = 0) ∧
    (txB2.pool = txE1.1.pool ∧ txE2.1.pool = txE1.1.pool) ∧
    (txB3.pool = txE1.1.pool ∧ txE3.1.pool = txE1.1.pool) ∧
    (txB4.pool = txE1.1.pool ∧
      txMid4.pool.releaseCount = 0 ∧
      txMid4.executedSQLCount = txB4.executedSQLCount + 1 ∧
      txQ4.afterTransactionExecution txMid4 = txE4.1 ∧
      txE4.1.pool.acquireCount = 1 ∧ txE4.1.pool.releaseCount = 1) ∧
    (txE1.2 = none ∧ txE2.2 = none ∧ txE3.2 = none ∧ txE4.2 = none) := by
  decide

/-- **C5.** A save whose storage flush fails leaves the In-Flight
Relation Change exactly as it was (a retry reissues the same
operations), while a successful flush resets it to empty (clear flag
false, add and remove sets empty); concretely, the failed-then-retried
`addArticle` scenario of the one-to-many tests behaves exactly so. -/
theorem inFlightSaveRetrySemantics (s : InFlight) :
    (s.performSave false).1 = s ∧
    ((s.performSave false).1).flushOps = s.flushOps ∧
    (s.performSave false).2.2.isSome = true ∧
    (s.performSave true).1 = InFlight.empty ∧
    (s.performSave true).2.2 = none ∧
    InFlight.empty.clear = false ∧
    InFlight.empty.add = [] ∧
    InFlight.empty.remove = [] ∧
    (InFlight.empty.addObject 828).performSave false =
      ({ clear := false, add := [828], remove := [] },
       [FlushOp.addBatch [828]], some "Intended test error.") ∧
    ((InFlight.empty.addObject 828).performSave false).1.performSave true =
      (InFlight.empty, [FlushOp.addBatch [828]], none) :=
  ⟨rfl, rfl, rfl, rfl, rfl, rfl, rfl, rfl, by decide, by decide⟩

/-- **C6.** Accessing a not-yet-loaded relation collection cache always
fails with the descriptive "not yet loaded" error; after the owning
fetch / eager load completes, the same access succeeds with the cached
ordered sequence, and an owner with zero related rows gets an empty
sequence, never an absent value. -/
theorem collectionCacheAccess (relName : String) (ownerPk : Nat)
    (rows : List RelatedRow) :
    accessCollectionCache relName none =
      Except.error ("The relation " ++ relName ++ " is not yet loaded.") ∧
    accessCollectionCache relName (loadCollectionCache ownerPk rows) =
      Except.ok ((rows.filter (fun r => r.fk = some ownerPk)).map
        RelatedRow.rowId) ∧
    accessCollectionCache relName (loadCollectionCache ownerPk []) =
      Except.ok [] :=
  ⟨rfl, rfl, rfl⟩

/-- **C3 counterexample.** The first join of the self-referential
`manager` relation (employee joined to its own `employees` table)
receives the bare relation name `manager` as its alias, with no numeric
suffix — refuting that a self-referential join is always given a
suffixed alias even on first use. -/
theorem selfJoinBareAliasCounterexample :
    selfReferential employeeWorld employeeModel "manager" = true ∧
    (resolveSelect employeeWorld employeeModel [["manager"]] []).joins =
      [{ pathSegs := ["manager"]
         joinAlias := "manager"
         suffixIdx := none
         targetTable := "employees" }] := by
  decide

/-- **C4 counterexample.** `manager` is a to-one (belongs-to) relation,
yet referencing just it in a condition adds the implicit
`GROUP BY "employees"."id"` (as the self-join tests expect) — so the
implicit grouping is not reserved to to-many relation paths. -/
theorem toOneConditionGroupingCounterexample :
    (employeeModel.relations.find? (fun p => decide (p.1 = "manager"))).map
        (fun p => p.2.relKind) = some RelKind.belongsTo ∧
    (resolveSelect employeeWorld employeeModel [] [["manager"]]).groupBy =
      some ("employees", "id") := by
  decide

/-- **C3 (amended).** Alias assignment is deterministic, in
path-first-encountered order: a join whose relation name is not yet in
use receives the bare relation name with no suffix (even when
self-referential), while a relation name already in use — an earlier
join with the same name, or a relation named like the primary table —
receives a `_jN` numeric suffix, even on first use; the self-join test
scenarios resolve to exactly the aliases their expected SQL shows. -/
theorem joinAliasAssignment (used : List String) (base : String) :
    (used.contains base = false → mkJoinAlias used base = (base, none)) ∧
    (used.contains base = true → (mkJoinAlias used base).2.isSome = true) ∧
    (resolveSelect employeeWorld employeeModel []
        [["manager"], ["manager", "manager"]]).joins =
      [{ pathSegs := ["manager"]
         joinAlias := "manager"
         suffixIdx := none
         targetTable := "employees" },
       { pathSegs := ["manager", "manager"]
         joinAlias := "manager_j1"
         suffixIdx := some 1
         targetTable := "employees" }] ∧
    (resolveSelect nodeWorld nodeModel [["nodes"]] []).joins =
      [{ pathSegs := ["nodes"]
         joinAlias := "nodes_j1"
         suffixIdx := some 1
         targetTable := "nodes" }] ∧
    (resolveSelect nodeWorld nodeModel [] [["nodes", "nodes", "nodes"]]).joins =
      [{ pathSegs := ["nodes"]
         joinAlias := "nodes_j1"
         suffixIdx := some 1
         targetTable := "nodes" },
       { pathSegs := ["nodes", "nodes"]
         joinAlias := "nodes_j2"
         suffixIdx := some 2
         targetTable := "nodes" },
       { pathSegs := ["nodes", "nodes", "nodes"]
         joinAlias := "nodes_j3"
         suffixIdx := some 3
         targetTable := "nodes" }] := by
  refine ⟨?_, ?_, by decide, by decide, by decide⟩
  · intro hcon
    have hmem : ¬ base ∈ used := by simpa using hcon
    simp [mkJoinAlias, hmem]
  · intro hcon
    have hmem : base ∈ used := by simpa using hcon
    simp [mkJoinAlias, hmem]

/-- Witness: with only the primary table name in use, the `manager`
relation name is free and gets the bare, unsuffixed alias. -/
theorem joinAliasAssignment_witness :
    mkJoinAlias ["employees"] "manager" = ("manager", none) :=
  (joinAliasAssignment ["employees"] "manager").1 (by decide)

/-- **C4 (amended).** An explicit `join()` adds only the JOIN clause and
never the implicit GROUP BY on the primary key (with no condition paths
there is never grouping); the implicit grouping appears exactly when
resolving the condition/ordering relation paths creates at least one new
automatic join — irrespective of the relation's kind, and therefore not
for paths whose joins were already added explicitly.  The self-join test
scenarios compile accordingly. -/
theorem implicitGroupingRule (w : World) (m : ModelClass)
    (ep cp : List (List String)) :
    (resolveSelect w m ep []).groupBy = none ∧
    ((resolveSelect w m ep cp).groupBy ≠ none ↔
      (addPaths w m (initJoinState m) ep).joins.length <
        (addPaths w m (addPaths w m (initJoinState m) ep) cp).joins.length) ∧
    (resolveSelect employeeWorld employeeModel [["manager"]] []).groupBy =
      none ∧
    (resolveSelect employeeWorld employeeModel [] [["subordinates"]]).groupBy =
      some ("employees", "id") ∧
    (resolveSelect nodeWorld nodeModel [["nodes"]] [["nodes"]]).groupBy =
      none ∧
    (resolveSelect nodeWorld nodeModel [] [["nodes"]]).groupBy =
      some ("nodes", "id") := by
  refine ⟨?_, ?_, by decide, by decide, by decide, by decide⟩
  · simp [resolveSelect, addPaths]
  · simp only [resolveSelect]
    by_cases hlt : (addPaths w m (initJoinState m) ep).joins.length <
        (addPaths w m (addPaths w m (initJoinState m) ep) cp).joins.length <;>
      simp [hlt]

/-- **C7 counterexample.** The begin query itself is bound to the handle
while the handle is still pending-acquire, yet executing it passes
validation and its statement reaches a connection — so not *every* query
bound to a pending-acquire handle fails validation. -/
theorem pendingAcquireBeginExecutes :
    txQ1.transactionRef = some 0 ∧
    (getHandle txB1 0).transactionNeedsToAcquireClient = true ∧
    (txQ1.execute txB1).2 = none ∧
    (txQ1.execute txB1).1.executedSQLCount = txB1.executedSQLCount + 1 := by
  decide

/-- **C7 (amended).** Executing a query bound to a pending-acquire
handle, other than a query carrying the `begin` override, fails
validation with 'Must execute `begin` query before using transaction.'
and leaves the world untouched — no statement reaches a connection. -/
theorem pendingAcquireValidation (q : Query) (σ : DbState) (h : Nat)
    (ht : q.transactionRef = some h)
    (ha : (getHandle σ h).transactionNeedsToAcquireClient = true)
    (hb : q.transactionSQLOverride ≠ some "begin") :
    q.execute σ =
      (σ, some "Must execute `begin` query before using transaction.") := by
  unfold Query.execute Query.validateBeforeTransactionExecution
  rw [if_neg hb, ht]
  simp [ha]

/-- Witness: a plain select-chain query bound to the pending-acquire
handle of the concrete scenario fails exactly so. -/
theorem pendingAcquireValidation_witness :
    txPendingBound.1.execute txPendingBound.2 =
      (txPendingBound.2,
       some "Must execute `begin` query before using transaction.") :=
  pendingAcquireValidation txPendingBound.1 txPendingBound.2 0
    (by decide) (by decide) (by decide)

/-- **C8 counterexample.** After the terminal commit has executed and the
handle is closed, a *second* commit query (a different query object from
the handle's terminal statement) built against the same handle still
passes validation and its statement reaches a connection — so the
exception is not limited to the handle's own terminal statement. -/
theorem closedHandleSecondCommitExecutes :
    (getHandle txB5 0).transactionClosed = true ∧
    txQ5.qid ≠ txQ4.qid ∧
    txQ5.transactionRef = some 0 ∧
    (txQ5.execute txB5).2 = none ∧
    (txQ5.execute txB5).1.executedSQLCount = txB5.executedSQLCount + 1 := by
  decide

/-- **C8 (amended).** A query bound to a closed transaction handle fails
validation with the 'committed/resolved transaction' error exactly when
it carries no transaction SQL override: override-free queries fail (and
the world is untouched), while any query with a begin/commit/rollback
override — the handle's own terminal statement among them — passes this
validation. -/
theorem closedHandleValidation (q : Query) (σ : DbState) (h : Nat)
    (ht : q.transactionRef = some h)
    (hc : (getHandle σ h).transactionClosed = true)
    (hna : (getHandle σ h).transactionNeedsToAcquireClient = false) :
    (q.transactionSQLOverride = none →
      q.execute σ =
        (σ, some "Cannot execute query using committed/resolved transaction.")) ∧
    (q.transactionSQLOverride ≠ none →
      q.validateBeforeTransactionExecution σ = none) := by
  constructor
  · intro hov
    unfold Query.execute Query.validateBeforeTransactionExecution
    rw [ht]
    simp [hov, hna, hc]
  · intro hov
    unfold Query.validateBeforeTransactionExecution
    by_cases hb : q.transactionSQLOverride = some "begin"
    · simp [hb]
    · rw [if_neg hb, ht]
      simp [hna, hc, hov]

/-- Witness: the plain query bound to the closed handle of the concrete
scenario raises exactly the 'committed/resolved transaction' error. -/
theorem closedHandleValidation_witness :
    txClosedBound.1.execute txClosedBound.2 =
      (txClosedBound.2,
       some "Cannot execute query using committed/resolved transaction.") :=
  (closedHandleValidation txClosedBound.1 txClosedBound.2 0
    (by decide) (by decide) (by decide)).1 (by decide)

theorem clauseState_eq_of (q : Query) (σ σ2 : DbState)
    (hw : σ.wfQuery q = true)
    (hf : ∀ r, r < σ.fnArrs.length → listGet σ2.fnArrs r = listGet σ.fnArrs r)
    (hs : ∀ r, r < σ.strArrs.length →
      listGet σ2.strArrs r = listGet σ.strArrs r) :
    q.clauseState σ2 = q.clauseState σ := by
  simp only [DbState.wfQuery, Bool.and_eq_true, decide_eq_true_eq] at hw
  obtain ⟨⟨⟨⟨⟨⟨hw1, hw2⟩, hwt⟩, hwc⟩, hwo⟩, hwj⟩, hwg⟩ := hw
  have htb : q.tablesRef.map (listGet σ2.strArrs) =
      q.tablesRef.map (listGet σ.strArrs) := by
    cases htt : q.tablesRef with
    | none => rfl
    | some r =>
        rw [htt] at hwt
        show some (listGet σ2.strArrs r) = some (listGet σ.strArrs r)
        rw [hs r (by simpa using hwt)]
  have hcl : q.columnsRef.map (listGet σ2.strArrs) =
      q.columnsRef.map (listGet σ.strArrs) := by
    cases htt : q.columnsRef with
    | none => rfl
    | some r =>
        rw [htt] at hwc
        show some (listGet σ2.strArrs r) = some (listGet σ.strArrs r)
        rw [hs r (by simpa using hwc)]
  have hgb : q.groupByRef.map (listGet σ2.strArrs) =
      q.groupByRef.map (listGet σ.strArrs) := by
    cases htt : q.groupByRef with
    | none => rfl
    | some r =>
        rw [htt] at hwg
        show some (listGet σ2.strArrs r) = some (listGet σ.strArrs r)
        rw [hs r (by simpa using hwg)]
  unfold Query.clauseState
  rw [htb, hcl, hgb, hf q.transformsRef hw2, hs q.ordersRef hwo,
    hs q.joinsRef hwj]

theorem prepareAcquire_arrays (t : Option Nat) (σ : DbState) :
    (prepareForTransactionClientAcquire t σ).fnArrs = σ.fnArrs ∧
    (prepareForTransactionClientAcquire t σ).strArrs = σ.strArrs := by
  cases t <;> simp [prepareForTransactionClientAcquire, setHandle]

theorem prepareRelease_arrays (t : Option Nat) (σ : DbState) :
    (prepareForTransactionClientRelease t σ).fnArrs = σ.fnArrs ∧
    (prepareForTransactionClientRelease t σ).strArrs = σ.strArrs := by
  cases t <;> simp [prepareForTransactionClientRelease, setHandle]

/-- `transform` allocates a `slice(0)` copy and pushes onto the copy:
object and array bookkeeping. -/
theorem transform_arrays (q : Query) (σ : DbState) (f : Nat) :
    (q.transform f σ).1.qid = σ.nextId ∧
    (q.transform f σ).1.kind = q.kind ∧
    (q.transform f σ).1.transformsRef = σ.fnArrs.length ∧
    (q.transform f σ).2.fnArrs.length = σ.fnArrs.length + 1 ∧
    listGet (q.transform f σ).2.fnArrs σ.fnArrs.length =
      listGet σ.fnArrs q.transformsRef ++ [f] ∧
    (∀ r, r < σ.fnArrs.length →
      listGet (q.transform f σ).2.fnArrs r = listGet σ.fnArrs r) ∧
    (∀ r, r < σ.strArrs.length →
      listGet (q.transform f σ).2.strArrs r = listGet σ.strArrs r) ∧
    (q.transform f σ).2.nextId = σ.nextId + 1 := by
  have hd := dup_state q σ
  have href := hd.2.2.1
  have hfn := hd.2.2.2.2.2.2.2.2.2.1
  unfold Query.transform
  refine ⟨hd.1, hd.2.1, href, ?_, ?_, ?_, ?_, hd.2.2.2.2.2.1⟩
  · show (listPush (q.dup σ).2.fnArrs (q.dup σ).1.transformsRef f).length =
      σ.fnArrs.length + 1
    rw [href, hfn]
    simp [listPush, List.length_set]
  · show listGet (listPush (q.dup σ).2.fnArrs (q.dup σ).1.transformsRef f)
        σ.fnArrs.length = listGet σ.fnArrs q.transformsRef ++ [f]
    rw [href, hfn]
    unfold listPush
    rw [listGet_set_self]
    · rw [listGet_last]
    · simp
  · intro r hr
    show listGet (listPush (q.dup σ).2.fnArrs (q.dup σ).1.transformsRef f) r =
      listGet σ.fnArrs r
    rw [href, hfn]
    unfold listPush
    rw [listGet_set_ne _ _ _ _ (Nat.ne_of_lt hr), listGet_append_lt _ _ _ hr]
  · intro r hr
    show listGet (q.dup σ).2.strArrs r = listGet σ.strArrs r
    exact dup_str_pres q σ r hr

/-- `begin` beyond duplication touches only the handle heap. -/
theorem begin_arrays (q : Query) (σ : DbState) :
    (q.begin σ).1.qid = σ.nextId ∧
    (q.begin σ).2.fnArrs = (q.dup σ).2.fnArrs ∧
    (q.begin σ).2.strArrs = (q.dup σ).2.strArrs := by
  have hd := dup_state q σ
  unfold Query.begin
  cases htr : (q.dup σ).1.transactionRef with
  | none =>
      simp [htr, hd.1, allocHandle,
        prepareAcquire_arrays, setHandle, prepareForTransactionClientAcquire]
  | some h =>
      simp [htr, hd.1, setHandle, prepareForTransactionClientAcquire]

/-- `commit` beyond duplication touches only the handle heap. -/
theorem commit_arrays (q : Query) (σ : DbState) :
    (q.commit σ).1.qid = σ.nextId ∧
    (q.commit σ).2.fnArrs = (q.dup σ).2.fnArrs ∧
    (q.commit σ).2.strArrs = (q.dup σ).2.strArrs := by
  have hd := dup_state q σ
  unfold Query.commit
  cases htr : (q.dup σ).1.transactionRef with
  | none => simp [htr, hd.1, setHandle, prepareForTransactionClientRelease]
  | some h => simp [htr, hd.1, setHandle, prepareForTransactionClientRelease]

/-- `rollback` beyond duplication touches only the handle heap. -/
theorem rollback_arrays (q : Query) (σ : DbState) :
    (q.rollback σ).1.qid = σ.nextId ∧
    (q.rollback σ).2.fnArrs = (q.dup σ).2.fnArrs ∧
    (q.rollback σ).2.strArrs = (q.dup σ).2.strArrs := by
  have hd := dup_state q σ
  unfold Query.rollback
  cases htr : (q.dup σ).1.transactionRef with
  | none => simp [htr, hd.1, setHandle, prepareForTransactionClientRelease]
  | some h => simp [htr, hd.1, setHandle, prepareForTransactionClientRelease]

/-- The `transaction` setter beyond duplication touches only the handle
heap. -/
theorem transaction_arrays (q : Query) (t : Nat) (σ : DbState) :
    (q.transaction t σ).1.qid = σ.nextId ∧
    (q.transaction t σ).2.fnArrs = (q.dup σ).2.fnArrs ∧
    (q.transaction t σ).2.strArrs = (q.dup σ).2.strArrs := by
  have hd := dup_state q σ
  unfold Query.transaction
  cases hsql : q.transactionSQLOverride with
  | none =>
      simp [hsql, hd.1]
  | some s =>
      by_cases hrc : s = "rollback" ∨ s = "commit" <;>
        simp [hsql, hd.1, hrc, setHandle, prepareForTransactionClientRelease,
          apply_ite]

/-- Distinct object id plus unchanged clause state, packaged for reuse
across the mutators. -/
theorem qid_and_clause_preserved (q q2 : Query) (σ σ2 : DbState)
    (hw : σ.wfQuery q = true)
    (hw1 : q.qid < σ.nextId)
    (hqid : q2.qid = σ.nextId)
    (hf : ∀ r, r < σ.fnArrs.length → listGet σ2.fnArrs r = listGet σ.fnArrs r)
    (hs : ∀ r, r < σ.strArrs.length →
      listGet σ2.strArrs r = listGet σ.strArrs r) :
    q2.qid ≠ q.qid ∧ q.clauseState σ2 = q.clauseState σ := by
  constructor
  · rw [hqid]; exact ne_of_gt hw1
  · exact clauseState_eq_of q σ σ2 hw hf hs

theorem orderBy_str_pres (q : Query) (σ : DbState) (s : String) :
    ∀ r, r < σ.strArrs.length →
      listGet (q.orderBy s σ).2.strArrs r = listGet σ.strArrs r := by
  intro r hr
  have hne2 : r ≠ (q.dup σ).1.ordersRef := by
    rw [(dup_state2 q σ).1]; exact Nat.ne_of_lt hr
  show listGet (listPush (q.dup σ).2.strArrs (q.dup σ).1.ordersRef s) r =
    listGet σ.strArrs r
  unfold listPush
  rw [listGet_set_ne _ _ _ _ hne2]
  exact dup_str_pres q σ r hr

theorem join_str_pres (q : Query) (σ : DbState) (path : String) :
    ∀ r, r < σ.strArrs.length →
      listGet (q.join path σ).2.strArrs r = listGet σ.strArrs r := by
  intro r hr
  have hne2 : r ≠ (q.dup σ).1.joinsRef := by
    rw [(dup_state2 q σ).2.1]
    omega
  show listGet (listPush (q.dup σ).2.strArrs (q.dup σ).1.joinsRef path) r =
    listGet σ.strArrs r
  unfold listPush
  rw [listGet_set_ne _ _ _ _ hne2]
  exact dup_str_pres q σ r hr

theorem groupBy_str_pres (q : Query) (σ : DbState) (fields : List String) :
    ∀ r, r < σ.strArrs.length →
      listGet (q.groupBy fields σ).2.strArrs r = listGet σ.strArrs r := by
  intro r hr
  have hrd : r < (q.dup σ).2.strArrs.length := by
    have := dup_str_len_ge q σ
    omega
  show listGet ((q.dup σ).2.strArrs ++ [fields]) r = listGet σ.strArrs r
  rw [listGet_append_lt _ _ _ hrd]
  exact dup_str_pres q σ r hr

/-- **C2.** Every immutable query mutator — `transform`, the
`transaction` setter, `begin`, `commit`, `rollback`, and the clause
mutators `where`, `orderBy`, `limit`, `offset`, `groupBy`, `join` —
returns a distinct object (a fresh object id), and the original query's
own observable state (tables, columns, transforms, condition tree,
ordering, joins, grouping, limit, offset) is unchanged afterwards;
duplication copies the array-typed clause fields, so the pushes
performed by `transform`, `orderBy` and `join` land on the duplicate's
arrays and never alias the original's. -/
theorem immutableMutators (q : Query) (σ : DbState) (t f n : Nat)
    (c : CondTree) (s path : String) (fields : List String)
    (hw : σ.wfQuery q = true) :
    ((q.transform f σ).1.qid ≠ q.qid ∧
      q.clauseState (q.transform f σ).2 = q.clauseState σ) ∧
    ((q.transaction t σ).1.qid ≠ q.qid ∧
      q.clauseState (q.transaction t σ).2 = q.clauseState σ) ∧
    ((q.begin σ).1.qid ≠ q.qid ∧
      q.clauseState (q.begin σ).2 = q.clauseState σ) ∧
    ((q.commit σ).1.qid ≠ q.qid ∧
      q.clauseState (q.commit σ).2 = q.clauseState σ) ∧
    ((q.rollback σ).1.qid ≠ q.qid ∧
      q.clauseState (q.rollback σ).2 = q.clauseState σ) ∧
    ((q.whereClause c σ).1.qid ≠ q.qid ∧
      q.clauseState (q.whereClause c σ).2 = q.clauseState σ) ∧
    ((q.orderBy s σ).1.qid ≠ q.qid ∧
      q.clauseState (q.orderBy s σ).2 = q.clauseState σ) ∧
    ((q.limit n σ).1.qid ≠ q.qid ∧
      q.clauseState (q.limit n σ).2 = q.clauseState σ) ∧
    ((q.offset n σ).1.qid ≠ q.qid ∧
      q.clauseState (q.offset n σ).2 = q.clauseState σ) ∧
    ((q.groupBy fields σ).1.qid ≠ q.qid ∧
      q.clauseState (q.groupBy fields σ).2 = q.clauseState σ) ∧
    ((q.join path σ).1.qid ≠ q.qid ∧
      q.clauseState (q.join path σ).2 = q.clauseState σ) ∧
    listGet (q.transform f σ).2.fnArrs (q.transform f σ).1.transformsRef =
      listGet σ.fnArrs q.transformsRef ++ [f] ∧
    listGet (q.orderBy s σ).2.strArrs (q.orderBy s σ).1.ordersRef =
      listGet σ.strArrs q.ordersRef ++ [s] ∧
    listGet (q.join path σ).2.strArrs (q.join path σ).1.joinsRef =
      listGet σ.strArrs q.joinsRef ++ [path] := by
  have hw1 : q.qid < σ.nextId := by
    have hw2 := hw
    simp only [DbState.wfQuery, Bool.and_eq_true, decide_eq_true_eq] at hw2
    exact hw2.1.1.1.1.1.1
  have hd := dup_state q σ
  have hdupfn : ∀ σ2 : DbState, σ2.fnArrs = (q.dup σ).2.fnArrs →
      ∀ r, r < σ.fnArrs.length →
      listGet σ2.fnArrs r = listGet σ.fnArrs r := by
    intro σ2 h2 r hr; rw [h2]; exact dup_fn_pres q σ r hr
  have hdupstr : ∀ σ2 : DbState, σ2.strArrs = (q.dup σ).2.strArrs →
      ∀ r, r < σ.strArrs.length →
      listGet σ2.strArrs r = listGet σ.strArrs r := by
    intro σ2 h2 r hr; rw [h2]; exact dup_str_pres q σ r hr
  have ta := transform_arrays q σ f
  refine ⟨?_, ?_, ?_, ?_, ?_, ?_, ?_, ?_, ?_, ?_, ?_, ?_, ?_, ?_⟩
  · exact qid_and_clause_preserved q _ σ _ hw hw1 ta.1
      ta.2.2.2.2.2.1 ta.2.2.2.2.2.2.1
  · exact qid_and_clause_preserved q _ σ _ hw hw1 (transaction_arrays q t σ).1
      (hdupfn _ (transaction_arrays q t σ).2.1)
      (hdupstr _ (transaction_arrays q t σ).2.2)
  · exact qid_and_clause_preserved q _ σ _ hw hw1 (begin_arrays q σ).1
      (hdupfn _ (begin_arrays q σ).2.1)
      (hdupstr _ (begin_arrays q σ).2.2)
  · exact qid_and_clause_preserved q _ σ _ hw hw1 (commit_arrays q σ).1
      (hdupfn _ (commit_arrays q σ).2.1)
      (hdupstr _ (commit_arrays q σ).2.2)
  · exact qid_and_clause_preserved q _ σ _ hw hw1 (rollback_arrays q σ).1
      (hdupfn _ (rollback_arrays q σ).2.1)
      (hdupstr _ (rollback_arrays q σ).2.2)
  · exact qid_and_clause_preserved q _ σ _ hw hw1 hd.1
      (hdupfn _ rfl) (hdupstr _ rfl)
  · exact qid_and_clause_preserved q _ σ _ hw hw1 hd.1
      (hdupfn _ rfl) (orderBy_str_pres q σ s)
  · exact qid_and_clause_preserved q _ σ _ hw hw1 hd.1
      (hdupfn _ rfl) (hdupstr _ rfl)
  · exact qid_and_clause_preserved q _ σ _ hw hw1 hd.1
      (hdupfn _ rfl) (hdupstr _ rfl)
  · exact qid_and_clause_preserved q _ σ _ hw hw1 hd.1
      (hdupfn _ rfl) (groupBy_str_pres q σ fields)
  · exact qid_and_clause_preserved q _ σ _ hw hw1 hd.1
      (hdupfn _ rfl) (join_str_pres q σ path)
  · rw [ta.2.2.1]; exact ta.2.2.2.2.1
  · show listGet (listPush (q.dup σ).2.strArrs (q.dup σ).1.ordersRef s)
        (q.dup σ).1.ordersRef = listGet σ.strArrs q.ordersRef ++ [s]
    unfold listPush
    rw [listGet_set_self _ _ _ (dup_str_bounds q σ).1, dup_orders_copy]
  · show listGet (listPush (q.dup σ).2.strArrs (q.dup σ).1.joinsRef path)
        (q.dup σ).1.joinsRef = listGet σ.strArrs q.joinsRef ++ [path]
    unfold listPush
    rw [listGet_set_self _ _ _ (dup_str_bounds q σ).2, dup_joins_copy]

/-- **C10.** Transform functions are applied at execution in the order
they were added, as a left fold where each function receives the
previous function's output and the query's type; duplication copies the
transform list, so adding a transform on one branch of a chain never
changes what another branch (or the original) applies. -/
theorem transformOrderAndBranches {ρ : Type} (q : Query) (σ : DbState)
    (f g k : Nat) (env : Nat → ρ → QueryKind → ρ) (res : ρ)
    (q1 q2 q3 : Query) (σ1 σ2 σ3 : DbState)
    (hq : q.transformsRef < σ.fnArrs.length)
    (h1q : q1 = (q.transform f σ).1) (h1s : σ1 = (q.transform f σ).2)
    (h2q : q2 = (q1.transform g σ1).1) (h2s : σ2 = (q1.transform g σ1).2)
    (h3q : q3 = (q.transform k σ2).1) (h3s : σ3 = (q.transform k σ2).2) :
    q2.applyTransforms σ2 env res
      = env g (env f (q.applyTransforms σ env res) q.kind) q.kind ∧
    q3.applyTransforms σ3 env res
      = env k (q.applyTransforms σ env res) q.kind ∧
    q2.applyTransforms σ3 env res = q2.applyTransforms σ2 env res ∧
    listGet σ3.fnArrs q.transformsRef = listGet σ.fnArrs q.transformsRef := by
  subst h1q h1s h2q h2s h3q h3s
  have ta1 := transform_arrays q σ f
  have ta2 := transform_arrays (q.transform f σ).1 (q.transform f σ).2 g
  have ta3 := transform_arrays q ((q.transform f σ).1.transform g
    (q.transform f σ).2).2 k
  have hlen1 : (q.transform f σ).2.fnArrs.length = σ.fnArrs.length + 1 :=
    ta1.2.2.2.1
  have hlen2 : ((q.transform f σ).1.transform g
      (q.transform f σ).2).2.fnArrs.length
      = (q.transform f σ).2.fnArrs.length + 1 := ta2.2.2.2.1
  have hq1 : q.transformsRef < (q.transform f σ).2.fnArrs.length := by
    rw [hlen1]; exact Nat.lt_succ_of_lt hq
  have hq2 : q.transformsRef < ((q.transform f σ).1.transform g
      (q.transform f σ).2).2.fnArrs.length := by
    rw [hlen2]; exact Nat.lt_succ_of_lt hq1
  have hl1 : listGet (q.transform f σ).2.fnArrs
      (q.transform f σ).1.transformsRef
      = listGet σ.fnArrs q.transformsRef ++ [f] := by
    rw [ta1.2.2.1]; exact ta1.2.2.2.2.1
  have hl2 : listGet ((q.transform f σ).1.transform g
        (q.transform f σ).2).2.fnArrs
      ((q.transform f σ).1.transform g (q.transform f σ).2).1.transformsRef
      = (listGet σ.fnArrs q.transformsRef ++ [f]) ++ [g] := by
    rw [ta2.2.2.1, ta2.2.2.2.2.1, hl1]
  have hpre2 : listGet ((q.transform f σ).1.transform g
        (q.transform f σ).2).2.fnArrs q.transformsRef
      = listGet σ.fnArrs q.transformsRef := by
    rw [ta2.2.2.2.2.2.1 q.transformsRef hq1, ta1.2.2.2.2.2.1 q.transformsRef hq]
  have hl3 : listGet (q.transform k ((q.transform f σ).1.transform g
        (q.transform f σ).2).2).2.fnArrs
      (q.transform k ((q.transform f σ).1.transform g
        (q.transform f σ).2).2).1.transformsRef
      = listGet σ.fnArrs q.transformsRef ++ [k] := by
    rw [ta3.2.2.1, ta3.2.2.2.2.1, hpre2]
  have hk1 : (q.transform f σ).1.kind = q.kind := ta1.2.1
  have hk2 : ((q.transform f σ).1.transform g (q.transform f σ).2).1.kind
      = q.kind := by rw [ta2.2.1, hk1]
  have hk3 : (q.transform k ((q.transform f σ).1.transform g
      (q.transform f σ).2).2).1.kind = q.kind := ta3.2.1
  have href2lt : ((q.transform f σ).1.transform g
      (q.transform f σ).2).1.transformsRef
      < ((q.transform f σ).1.transform g (q.transform f σ).2).2.fnArrs.length := by
    rw [ta2.2.2.1, hlen2]
    exact Nat.lt_succ_self _
  have hbr : listGet (q.transform k ((q.transform f σ).1.transform g
        (q.transform f σ).2).2).2.fnArrs
      ((q.transform f σ).1.transform g (q.transform f σ).2).1.transformsRef
      = listGet ((q.transform f σ).1.transform g
        (q.transform f σ).2).2.fnArrs
      ((q.transform f σ).1.transform g (q.transform f σ).2).1.transformsRef :=
    ta3.2.2.2.2.2.1 _ href2lt
  refine ⟨?_, ?_, ?_, ?_⟩
  · unfold Query.applyTransforms
    rw [hl2, hk2]
    simp [List.foldl_append]
  · unfold Query.applyTransforms
    rw [hl3, hk3]
    simp [List.foldl_append]
  · unfold Query.applyTransforms
    rw [hbr]
  · rw [ta3.2.2.2.2.2.1 q.transformsRef hq2, hpre2]

/-- Witness: on the concrete branches, the two-transform branch applies
3 then 5, the sibling branch applies only 7, and neither branch nor the
original is affected by the other's additions. -/
theorem transformOrderAndBranches_witness :
    brB.1.applyTransforms brB.2 envW 0
      = envW 5 (envW 3 (wQ.applyTransforms wσ envW 0) wQ.kind) wQ.kind ∧
    brC.1.applyTransforms brC.2 envW 0
      = envW 7 (wQ.applyTransforms wσ envW 0) wQ.kind ∧
    brB.1.applyTransforms brC.2 envW 0 = brB.1.applyTransforms brB.2 envW 0 ∧
    listGet brC.2.fnArrs wQ.transformsRef = listGet wσ.fnArrs wQ.transformsRef :=
  transformOrderAndBranches wQ wσ 3 5 7 envW 0 brA.1 brB.1 brC.1 brA.2 brB.2
    brC.2 (by decide) rfl rfl rfl rfl rfl rfl

/-- Witness: the concrete select query keeps its full clause state
across every mutator — the five transaction/transform mutators and the
six clause mutators — each of which returns a fresh object, and the
pushes of `transform`, `orderBy` and `join` extend only the duplicates'
arrays. -/
theorem immutableMutators_witness :
    ((wQ.transform 7 wσ).1.qid ≠ wQ.qid ∧
      wQ.clauseState (wQ.transform 7 wσ).2 = wQ.clauseState wσ) ∧
    ((wQ.transaction 0 wσ).1.qid ≠ wQ.qid ∧
      wQ.clauseState (wQ.transaction 0 wσ).2 = wQ.clauseState wσ) ∧
    ((wQ.begin wσ).1.qid ≠ wQ.qid ∧
      wQ.clauseState (wQ.begin wσ).2 = wQ.clauseState wσ) ∧
    ((wQ.commit wσ).1.qid ≠ wQ.qid ∧
      wQ.clauseState (wQ.commit wσ).2 = wQ.clauseState wσ) ∧
    ((wQ.rollback wσ).1.qid ≠ wQ.qid ∧
      wQ.clauseState (wQ.rollback wσ).2 = wQ.clauseState wσ) ∧
    ((wQ.whereClause (CondTree.leaf "id" "exact" 5) wσ).1.qid ≠ wQ.qid ∧
      wQ.clauseState (wQ.whereClause (CondTree.leaf "id" "exact" 5) wσ).2 =
        wQ.clauseState wσ) ∧
    ((wQ.orderBy "-name" wσ).1.qid ≠ wQ.qid ∧
      wQ.clauseState (wQ.orderBy "-name" wσ).2 = wQ.clauseState wσ) ∧
    ((wQ.limit 10 wσ).1.qid ≠ wQ.qid ∧
      wQ.clauseState (wQ.limit 10 wσ).2 = wQ.clauseState wσ) ∧
    ((wQ.offset 10 wσ).1.qid ≠ wQ.qid ∧
      wQ.clauseState (wQ.offset 10 wσ).2 = wQ.clauseState wσ) ∧
    ((wQ.groupBy ["id"] wσ).1.qid ≠ wQ.qid ∧
      wQ.clauseState (wQ.groupBy ["id"] wσ).2 = wQ.clauseState wσ) ∧
    ((wQ.join "author" wσ).1.qid ≠ wQ.qid ∧
      wQ.clauseState (wQ.join "author" wσ).2 = wQ.clauseState wσ) ∧
    listGet (wQ.transform 7 wσ).2.fnArrs (wQ.transform 7 wσ).1.transformsRef =
      listGet wσ.fnArrs wQ.transformsRef ++ [7] ∧
    listGet (wQ.orderBy "-name" wσ).2.strArrs (wQ.orderBy "-name" wσ).1.ordersRef =
      listGet wσ.strArrs wQ.ordersRef ++ ["-name"] ∧
    listGet (wQ.join "author" wσ).2.strArrs (wQ.join "author" wσ).1.joinsRef =
      listGet wσ.strArrs wQ.joinsRef ++ ["author"] :=
  immutableMutators wQ wσ 0 7 10 (CondTree.leaf "id" "exact" 5) "-name"
    "author" ["id"] (by decide)

/-- **C9.** Building a `commit()` or `rollback()` query mutates the
shared transaction handle synchronously, before the built query is ever
executed: the depth counter is decremented immediately, and when the
depth was 1 the closed flag and the needs-to-release flag are set
immediately (otherwise both flags are untouched); `rollback` has exactly
the same build-time effect on the world as `commit`.  Every other query
sharing the handle reads this same handle state. -/
theorem prepareRelease_fields (σ2 : DbState) (h : Nat)
    (hh : h < σ2.handles.length) :
    (getHandle (prepareForTransactionClientRelease (some h) σ2) h).transactionDepth
      = (getHandle σ2 h).transactionDepth.sub1 ∧
    ((getHandle σ2 h).transactionDepth = JsNum.int 1 →
      (getHandle (prepareForTransactionClientRelease (some h) σ2) h).transactionClosed
        = true ∧
      (getHandle (prepareForTransactionClientRelease (some h) σ2)
        h).transactionNeedsToReleaseClient = true) ∧
    ((getHandle σ2 h).transactionDepth ≠ JsNum.int 1 →
      (getHandle (prepareForTransactionClientRelease (some h) σ2) h).transactionClosed
        = (getHandle σ2 h).transactionClosed ∧
      (getHandle (prepareForTransactionClientRelease (some h) σ2)
        h).transactionNeedsToReleaseClient
        = (getHandle σ2 h).transactionNeedsToReleaseClient) := by
  unfold prepareForTransactionClientRelease
  by_cases h1 : (getHandle σ2 h).transactionDepth = JsNum.int 1 <;>
    simp [h1, getHandle_setHandle_self _ _ _ hh]

theorem commitRollbackBuildTimeMutation (q : Query) (σ : DbState) (h : Nat)
    (ht : q.transactionRef = some h) (hh : h < σ.handles.length) :
    (getHandle (q.commit σ).2 h).transactionDepth =
      (getHandle σ h).transactionDepth.sub1 ∧
    ((getHandle σ h).transactionDepth = JsNum.int 1 →
      (getHandle (q.commit σ).2 h).transactionClosed = true ∧
      (getHandle (q.commit σ).2 h).transactionNeedsToReleaseClient = true) ∧
    ((getHandle σ h).transactionDepth ≠ JsNum.int 1 →
      (getHandle (q.commit σ).2 h).transactionClosed =
        (getHandle σ h).transactionClosed ∧
      (getHandle (q.commit σ).2 h).transactionNeedsToReleaseClient =
        (getHandle σ h).transactionNeedsToReleaseClient) ∧
    (q.rollback σ).2 = (q.commit σ).2 := by
  have hd := dup_state q σ
  have hhandles : (q.dup σ).2.handles = σ.handles := hd.2.2.2.2.2.2.1
  have htr : (q.dup σ).1.transactionRef = q.transactionRef := hd.2.2.2.1
  have hh2 : h < (q.dup σ).2.handles.length := by rw [hhandles]; exact hh
  have hgh : getHandle (q.dup σ).2 h = getHandle σ h := by
    unfold getHandle; rw [hhandles]
  have hcommit : (q.commit σ).2 =
      prepareForTransactionClientRelease (some h) (q.dup σ).2 := by
    simp only [Query.commit, htr, ht]
  have hfields := prepareRelease_fields ((q.dup σ).2) h hh2
  rw [hgh] at hfields
  refine ⟨?_, ?_, ?_, rfl⟩
  · rw [hcommit]; exact hfields.1
  · intro h1; rw [hcommit]; exact hfields.2.1 h1
  · intro h1; rw [hcommit]; exact hfields.2.2 h1

/-- Witness: building the inner commit of the concrete scenario (handle
depth 2) decrements the depth to 1 and leaves the flags untouched. -/
theorem commitRollbackBuildTimeMutation_witness :
    (getHandle (txQ2.commit txE2.1).2 0).transactionDepth =
      (getHandle txE2.1 0).transactionDepth.sub1 ∧
    (getHandle (txQ2.commit txE2.1).2 0).transactionClosed =
      (getHandle txE2.1 0).transactionClosed := by
  have h := commitRollbackBuildTimeMutation txQ2 txE2.1 0 (by decide) (by decide)
  exact ⟨h.1, (h.2.2.1 (by decide)).1⟩

end Azul
